import Mathlib

set_option maxRecDepth 100000

/-!
Verification of `sync_dir_remotely.py` (passy/sync_dir_remotely).

Shallow embedding of the synchronisation engine: the wire codec
(`MessageSerde.serialise` / `MessageSerde.deserialise`), the diff engine
(`StateDiffer.diff`), the fingerprint cache (`DirCrawler.crawl_and_hash`,
`DirMonitor`), the server dispatcher (`RemoteMessageHandler.handle_message`,
`FileWriter.write`) and the client uploader (`FileUploader.upload_files`).

Modelling conventions:
* Byte strings are `List Nat` (each element one byte value).
* Python dicts are association lists with insertion-order semantics;
  `dictInsert` overwrites an existing key in place (keeping its position)
  and appends a fresh key, exactly like assignment into a Python dict.
  Dict iteration is modelled as list order.
* Floats (`time.time()` values, mtimes) are modelled as `Int`; no claim
  depends on floating-point arithmetic, the values are only stored,
  compared and carried through the codec.
* `hashlib.md5` is implemented concretely (full MD5 compression function,
  RFC 1321), since the codec checksum and the file fingerprints use it.
* `json.dumps` and `json.loads` are modelled by a concrete invertible
  encoder and decoder pair on a JSON value type (`JVal`); the exact byte
  format of the encoding is irrelevant to every claim, only that the
  decoder inverts the encoder and fails on non-encodings (as `json.loads`
  raises on malformed input).
* Raised Python exceptions are modelled as `Except.error` with a short
  message (the source interpolates values into its messages; the text
  content is irrelevant to the claims).
-/

namespace SyncDir

/-! ### Association-list dictionaries (Python dict model) -/

/-- Lookup in an association list: first binding of the key wins
(Python dicts have unique keys, so first = only). -/
def alookup {α : Type} : List (String × α) → String → Option α
  | [], _ => none
  | (k, v) :: rest, key => if k = key then some v else alookup rest key

/-- Assignment `d[k] = v` into a Python dict: overwrite in place if the key
exists (keeping its position), otherwise append at the end. -/
def dictInsert {α : Type} : List (String × α) → String → α → List (String × α)
  | [], k, v => [(k, v)]
  | (k0, v0) :: rest, k, v =>
      if k0 = k then (k, v) :: rest else (k0, v0) :: dictInsert rest k v

/-- Python `d.update(new)`: assign every binding of `new` into `d` in order. -/
def dictUpdate {α : Type} (d new : List (String × α)) : List (String × α) :=
  new.foldl (fun acc kv => dictInsert acc kv.1 kv.2) d

/-- Keys of a dict, in order. -/
def dictKeys {α : Type} (d : List (String × α)) : List String := d.map Prod.fst

/-! ### Python list slicing -/

/-- Clamp a Python slice index (possibly negative) for a list of length `n`. -/
def pyIdx (n : Nat) (i : Int) : Nat :=
  if i < 0 then ((n : Int) + i).toNat else min i.toNat n

/-- Python `l[a:b]` for integer indices. -/
def pyslice (l : List Nat) (a b : Int) : List Nat :=
  (l.take (pyIdx l.length b)).drop (pyIdx l.length a)

/-! ### 4-byte big-endian signed integers (struct format >i) -/

/-- Pack a signed 32-bit integer as 4 big-endian bytes
(the source only ever packs in-range values; `struct.pack` raises
otherwise, so theorems carry the range hypothesis). -/
def pack_i (n : Int) : List Nat :=
  [(n % 4294967296).toNat / 16777216 % 256, (n % 4294967296).toNat / 65536 % 256,
   (n % 4294967296).toNat / 256 % 256, (n % 4294967296).toNat % 256]

/-- Big-endian accumulation of a byte list into an unsigned value. -/
def beFold (bs : List Nat) : Nat := bs.foldl (fun acc b => acc * 256 + b) 0

/-- Unpack 4 big-endian bytes as a signed 32-bit integer. -/
def unpack_i (bs : List Nat) : Int :=
  if beFold bs < 2147483648 then (beFold bs : Int) else (beFold bs : Int) - 4294967296

@[simp] theorem pack_i_length (n : Int) : (pack_i n).length = 4 := rfl

/-! ### MD5 (hashlib.md5) -/

/-- Addition modulo 2^32. -/
def add32 (a b : Nat) : Nat := (a + b) % 4294967296

/-- Bitwise complement on 32-bit words. -/
def not32 (x : Nat) : Nat := 4294967295 ^^^ x

/-- Left rotation on 32-bit words. -/
def rotl32 (x n : Nat) : Nat := ((x <<< n) ||| (x >>> (32 - n))) % 4294967296

/-- The 64 MD5 sine constants (RFC 1321). -/
def md5K : List Nat :=
  [3614090360, 3905402710, 606105819, 3250441966, 4118548399, 1200080426,
   2821735955, 4249261313, 1770035416, 2336552879, 4294925233, 2304563134,
   1804603682, 4254626195, 2792965006, 1236535329, 4129170786, 3225465664,
   643717713, 3921069994, 3593408605, 38016083, 3634488961, 3889429448,
   568446438, 3275163606, 4107603335, 1163531501, 2850285829, 4243563512,
   1735328473, 2368359562, 4294588738, 2272392833, 1839030562, 4259657740,
   2763975236, 1272893353, 4139469664, 3200236656, 681279174, 3936430074,
   3572445317, 76029189, 3654602809, 3873151461, 530742520, 3299628645,
   4096336452, 1126891415, 2878612391, 4237533241, 1700485571, 2399980690,
   4293915773, 2240044497, 1873313359, 4264355552, 2734768916, 1309151649,
   4149444226, 3174756917, 718787259, 3951481745]

/-- The MD5 per-round left-rotation amounts. -/
def md5S : List Nat :=
  [7, 12, 17, 22, 7, 12, 17, 22, 7, 12, 17, 22, 7, 12, 17, 22,
   5, 9, 14, 20, 5, 9, 14, 20, 5, 9, 14, 20, 5, 9, 14, 20,
   4, 11, 16, 23, 4, 11, 16, 23, 4, 11, 16, 23, 4, 11, 16, 23,
   6, 10, 15, 21, 6, 10, 15, 21, 6, 10, 15, 21, 6, 10, 15, 21]

/-- Round function and message index for MD5 round `i`. -/
def md5FG (i b c d : Nat) : Nat × Nat :=
  if i < 16 then ((b &&& c) ||| (not32 b &&& d), i)
  else if i < 32 then ((d &&& b) ||| (not32 d &&& c), (5 * i + 1) % 16)
  else if i < 48 then (b ^^^ c ^^^ d, (3 * i + 5) % 16)
  else (c ^^^ (b ||| not32 d), (7 * i) % 16)

/-- Little-endian bytes of a 32-bit word. -/
def le32 (x : Nat) : List Nat :=
  [x % 256, x / 256 % 256, x / 65536 % 256, x / 16777216 % 256]

/-- Little-endian bytes of a 64-bit length field. -/
def le64 (x : Nat) : List Nat :=
  le32 (x % 4294967296) ++ le32 (x / 4294967296)

/-- MD5 padding: append 0x80, zero-pad to 56 mod 64, append bit length LE. -/
def md5pad (msg : List Nat) : List Nat :=
  msg ++ [128] ++ List.replicate ((119 - msg.length % 64) % 64) 0 ++
    le64 (msg.length * 8)

/-- Split a byte list into full 64-byte chunks, with fuel bounding the
number of chunks (structural recursion so that evaluation reduces). -/
def chunks64Fuel : Nat → List Nat → List (List Nat)
  | 0, _ => []
  | f + 1, l => if l.length < 64 then [] else l.take 64 :: chunks64Fuel f (l.drop 64)

/-- Split a byte list into 64-byte chunks (length is a multiple of 64
after padding; a ragged tail would be dropped, which never happens). -/
def chunks64 (l : List Nat) : List (List Nat) := chunks64Fuel l.length l

/-- The 16 little-endian 32-bit words of one 64-byte block. -/
def blockWord (block : List Nat) (j : Nat) : Nat :=
  block.getD (4 * j) 0 + 256 * block.getD (4 * j + 1) 0 +
    65536 * block.getD (4 * j + 2) 0 + 16777216 * block.getD (4 * j + 3) 0

/-- One iteration of the MD5 inner loop. -/
def md5Round (block : List Nat) (st : Nat × Nat × Nat × Nat) (i : Nat) :
    Nat × Nat × Nat × Nat :=
  let (a, b, c, d) := st
  let (f, g) := md5FG i b c d
  let f' := add32 (add32 (add32 f a) (md5K.getD i 0)) (blockWord block g)
  (d, add32 b (rotl32 f' (md5S.getD i 0)), b, c)

/-- MD5 compression of one 64-byte block into the running state. -/
def md5Block (st : Nat × Nat × Nat × Nat) (block : List Nat) :
    Nat × Nat × Nat × Nat :=
  let (a0, b0, c0, d0) := st
  let (a, b, c, d) := (List.range 64).foldl (md5Round block) st
  (add32 a0 a, add32 b0 b, add32 c0 c, add32 d0 d)

/-- MD5 digest of a byte string, as 16 bytes. -/
def md5bytes (msg : List Nat) : List Nat :=
  let init : Nat × Nat × Nat × Nat := (1732584193, 4023233417, 2562383102, 271733878)
  let (a, b, c, d) := (chunks64 (md5pad msg)).foldl md5Block init
  le32 a ++ le32 b ++ le32 c ++ le32 d

/-- ASCII code of a lowercase hex digit. -/
def hexDigit (n : Nat) : Nat := if n < 10 then 48 + n else 87 + n

/-- Lowercase hex rendering of a byte string, as ASCII byte codes. -/
def hexOfBytes : List Nat → List Nat
  | [] => []
  | b :: rest => hexDigit (b / 16) :: hexDigit (b % 16) :: hexOfBytes rest

/-- Python `md5(data).hexdigest()` as the 32 ASCII bytes of the hex string. -/
def md5hex (msg : List Nat) : List Nat := hexOfBytes (md5bytes msg)

/-- Top-level helper `md5(*args)`: sequential `update` calls hash the
concatenation of the arguments. -/
def md5cat (args : List (List Nat)) : List Nat := md5hex args.flatten

/-- Python `hexdigest()` as a `String` (used for file fingerprints). -/
def md5hexStr (msg : List Nat) : String :=
  String.mk ((md5hex msg).map Char.ofNat)

/-! ### JSON values and the json.dumps / json.loads model -/

/-- JSON values as they occur in message bodies: numbers, strings, lists
and objects. Numbers are modelled as `Int` (the source stores floats such
as `time.time()`, but only ever carries them through; no claim depends on
float arithmetic). -/
inductive JVal : Type where
  | jnum : Int → JVal
  | jstr : String → JVal
  | jlist : List JVal → JVal
  | jobj : List (String × JVal) → JVal
deriving Inhabited

/-- A message body: a Python dict from string keys to JSON values. -/
abbrev Body := List (String × JVal)

/-- Self-delimiting encoding of a natural number (unary with terminator). -/
def encNat (n : Nat) : List Nat := List.replicate n 1 ++ [0]

/-- Decoder for `encNat`. -/
def decNat : List Nat → Option (Nat × List Nat)
  | [] => none
  | 0 :: rest => some (0, rest)
  | 1 :: rest =>
      match decNat rest with
      | some (n, r) => some (n + 1, r)
      | none => none
  | _ :: _ => none

/-- Self-delimiting encoding of an integer (sign tag plus magnitude). -/
def encInt (n : Int) : List Nat :=
  if n < 0 then 1 :: encNat (-n).toNat else 0 :: encNat n.toNat

/-- Decoder for `encInt`. -/
def decInt : List Nat → Option (Int × List Nat)
  | [] => none
  | 0 :: rest =>
      match decNat rest with
      | some (n, r) => some ((n : Int), r)
      | none => none
  | 1 :: rest =>
      match decNat rest with
      | some (n, r) => some (-(n : Int), r)
      | none => none
  | _ :: _ => none

/-- Self-delimiting encoding of a string (length then character codes). -/
def encStr (s : String) : List Nat :=
  encNat s.data.length ++ s.data.map Char.toNat

/-- Decoder for `encStr`. -/
def decStr (bs : List Nat) : Option (String × List Nat) :=
  match decNat bs with
  | some (n, r) =>
      if n ≤ r.length then
        some (String.mk ((r.take n).map Char.ofNat), r.drop n)
      else none
  | none => none

mutual

/-- Encoding of a JSON value (models `json.dumps` up to the irrelevant
concrete byte format; injective and self-delimiting). -/
def encJ : JVal → List Nat
  | .jnum n => 0 :: encInt n
  | .jstr s => 1 :: encStr s
  | .jlist xs => 2 :: encL xs
  | .jobj kvs => 3 :: encK kvs

/-- Encoding of a list of JSON values. -/
def encL : List JVal → List Nat
  | [] => [0]
  | x :: xs => 1 :: (encJ x ++ encL xs)

/-- Encoding of an object (key-value list). -/
def encK : List (String × JVal) → List Nat
  | [] => [0]
  | (k, v) :: kvs => 1 :: (encStr k ++ encJ v ++ encK kvs)

end

mutual

/-- Fuelled decoder for JSON values (models `json.loads`; fails on
non-encodings the way the parser raises on malformed input). -/
def decJ : Nat → List Nat → Option (JVal × List Nat)
  | 0, _ => none
  | _ + 1, 0 :: rest =>
      match decInt rest with
      | some (n, r) => some (.jnum n, r)
      | none => none
  | _ + 1, 1 :: rest =>
      match decStr rest with
      | some (s, r) => some (.jstr s, r)
      | none => none
  | f + 1, 2 :: rest =>
      match decL f rest with
      | some (xs, r) => some (.jlist xs, r)
      | none => none
  | f + 1, 3 :: rest =>
      match decK f rest with
      | some (kvs, r) => some (.jobj kvs, r)
      | none => none
  | _ + 1, _ => none

/-- Fuelled decoder for lists of JSON values. -/
def decL : Nat → List Nat → Option (List JVal × List Nat)
  | 0, _ => none
  | _ + 1, 0 :: rest => some ([], rest)
  | f + 1, 1 :: rest =>
      match decJ f rest with
      | some (x, r) =>
          match decL f r with
          | some (xs, r2) => some (x :: xs, r2)
          | none => none
      | none => none
  | _ + 1, _ => none

/-- Fuelled decoder for objects. -/
def decK : Nat → List Nat → Option (List (String × JVal) × List Nat)
  | 0, _ => none
  | _ + 1, 0 :: rest => some ([], rest)
  | f + 1, 1 :: rest =>
      match decStr rest with
      | some (k, r0) =>
          match decJ f r0 with
          | some (v, r) =>
              match decK f r with
              | some (kvs, r2) => some ((k, v) :: kvs, r2)
              | none => none
          | none => none
      | none => none
  | _ + 1, _ => none

end

mutual

/-- Fuel bound for decoding an encoded JSON value. -/
def szJ : JVal → Nat
  | .jnum _ => 1
  | .jstr _ => 1
  | .jlist xs => 1 + szL xs
  | .jobj kvs => 1 + szK kvs

/-- Fuel bound for a list of JSON values. -/
def szL : List JVal → Nat
  | [] => 1
  | x :: xs => 1 + szJ x + szL xs

/-- Fuel bound for an object. -/
def szK : List (String × JVal) → Nat
  | [] => 1
  | (_, v) :: kvs => 1 + szJ v + szK kvs

end

/-- Roundtrip property of a single JSON value through the codec. -/
def JRTP (v : JVal) : Prop :=
  ∀ f rest, decJ (szJ v + f) (encJ v ++ rest) = some (v, rest)

/-- Model of `json.dumps(message.body)`: byte encoding of a dict body. -/
def jsonDumps (body : Body) : List Nat := encJ (JVal.jobj body)

/-- Model of `json.loads` followed by use as a dict: succeeds exactly on a
complete encoding of an object (the parser raises on malformed or trailing
input, and `dict.update` raises on a non-dict result). -/
def jsonLoads (bs : List Nat) : Option Body :=
  match decJ (bs.length + 1) bs with
  | some (.jobj kvs, []) => some kvs
  | _ => none

/-! ### Messages and the wire codec (MessageSerde) -/

/-- Whether an `Except` is a raised exception. -/
def isErr {ε α : Type} : Except ε α → Bool
  | .error _ => true
  | .ok _ => false

/-- A protocol message: numeric type plus dict body (class `Message`). -/
structure Msg : Type where
  type : Int
  body : Body

/-- The `Message` constructor: the body starts as the dict containing only
the `ts` key (set to the current time, passed in explicitly). -/
def msgInit (message_type : Int) (now : Int) : Msg :=
  { type := message_type, body := [("ts", JVal.jnum now)] }

/-- MessageSerde._md5: keyed checksum over (OS user name, data, token),
as the 32 ASCII bytes of the hex digest. -/
def serdeMd5 (token user data : List Nat) : List Nat :=
  md5cat [user, data, token]

/-- MessageSerde.serialise: fixed header (4-byte big-endian type, 32-byte
checksum, 4-byte big-endian body length) followed by the JSON body. -/
def serialise (token user : List Nat) (message : Msg) : List Nat :=
  pack_i message.type ++ serdeMd5 token user (jsonDumps message.body) ++
    pack_i ((jsonDumps message.body).length : Int) ++ jsonDumps message.body

/-- MessageSerde.deserialise. Returns `(none, input)` while the buffer is
short of a full frame; raises on checksum mismatch or malformed body;
otherwise returns the parsed message and the unconsumed remainder.
Python list slicing (including negative indices) is modelled by `pyslice`. -/
def deserialise (token user : List Nat) (now : Int) (input : List Nat) :
    Except String (Option Msg × List Nat) :=
  if input.length < 40 then .ok (none, input)
  else
    let header := pyslice input 0 40
    let msg_type := unpack_i (header.take 4)
    let body_md5 := (header.drop 4).take 32
    let body_bytes := unpack_i ((header.drop 36).take 4)
    let total_bytes : Int := 40 + body_bytes
    if (input.length : Int) < total_bytes then .ok (none, input)
    else
      let json_body := pyslice input 40 total_bytes
      if body_md5 ≠ serdeMd5 token user json_body then
        .error "Server aborting! MD5 mismatch"
      else
        match jsonLoads json_body with
        | none => .error "ValueError: malformed JSON body"
        | some kvs =>
            .ok (some { type := msg_type,
                        body := dictUpdate (msgInit msg_type now).body kvs },
                 pyslice input total_bytes (input.length : Int))

/-- Extensional equality of dict bodies (Python dict equality ignores
insertion order; it compares key-value contents). -/
def DictEquiv (d1 d2 : Body) : Prop := ∀ k, alookup d1 k = alookup d2 k

/-- The body length field of a partially received buffer, as the code
decodes it out of the 40-byte header. -/
def bodyLenOf (input : List Nat) : Int :=
  unpack_i (((pyslice input 0 40).drop 36).take 4)

/-- ASCII byte values of a string (used for concrete users and tokens). -/
def strBytes (s : String) : List Nat := s.data.map Char.toNat

/-! ### Snapshots and the diff engine (StateDiffer) -/

/-- One snapshot record: (epoch modified time, hex content hash), the
tuple stored by `DirCrawler.crawl_and_hash`. -/
abbrev FileRec := Int × String

/-- A directory snapshot: dict from relative path to its record. -/
abbrev Snap := List (String × FileRec)

/-- os.path.isabs for POSIX-style paths. -/
def isabs (p : String) : Bool :=
  match p.data with
  | c :: _ => c == '/'
  | [] => false

/-- Inner loop of `StateDiffer.diff` for one directory pair: walk the
source snapshot in iteration order, assert each path is relative, and
collect the paths absent from the destination or whose hash differs. -/
def diffDir (dst : Snap) : Snap → Except String (List String)
  | [] => .ok []
  | (path, (_, md5_hash)) :: restSrc =>
      if isabs path then .error "AssertionError: absolute path"
      else
        match diffDir dst restSrc with
        | .error e => .error e
        | .ok r =>
            match alookup dst path with
            | none => .ok (path :: r)
            | some (_, dsthash) =>
                if md5_hash ≠ dsthash then .ok (path :: r) else .ok r

/-- Index-paired traversal of the snapshot lists (the source loops
`for i in range(dir_count)`). -/
def diffAll : List Snap → List Snap → Except String (List (List String))
  | [], [] => .ok []
  | s :: ss, d :: ds =>
      match diffDir d s with
      | .error e => .error e
      | .ok r =>
          match diffAll ss ds with
          | .error e => .error e
          | .ok rs => .ok (r :: rs)
  | _, _ => .error "unreachable: lengths differ"

/-- StateDiffer.diff: asserts equal list lengths, then diffs index-wise. -/
def diff (src dst : List Snap) : Except String (List (List String)) :=
  if src.length = dst.length then diffAll src dst
  else .error "AssertionError: dir counts differ"

/-- A source path hits the diff for one directory pair when it is absent
from the destination snapshot or recorded there with a different hash. -/
def DiffHit (dst : Snap) (h : String) (p : String) : Prop :=
  alookup dst p = none ∨ ∃ mt2 h2, alookup dst p = some (mt2, h2) ∧ h ≠ h2

/-- A path belongs to the diff of one directory pair exactly when it is
recorded in the source snapshot and hits the destination. -/
def DiffCond (s dst : Snap) (p : String) : Prop :=
  ∃ mt h, (p, (mt, h)) ∈ s ∧ DiffHit dst h p

/-- Correctness of a diff result: one entry per source snapshot, and the
entry at each index holds exactly the hitting paths of that index. -/
def DiffOk (src dst : List Snap) (res : List (List String)) : Prop :=
  res.length = src.length ∧
  ∀ i, i < src.length → ∀ p,
    (p ∈ res.getD i [] ↔ DiffCond (src.getD i []) (dst.getD i []) p)

/-! ### Fingerprint cache (DirCrawler, DirMonitor) -/

/-- One file visible to a crawler: relative path, current modified time
and contents (the filesystem as the crawl observes it). -/
structure DirEntry : Type where
  path : String
  mtime : Int
  contents : List Nat
deriving DecidableEq

/-- The filesystem state under one root directory, in `os.walk` order. -/
structure DirState : Type where
  entries : List DirEntry

/-- DirCrawler.crawl: the relative paths of all files (the `DirMonitor`
constructs crawlers with an empty exclusion list, so `_is_excluded` is
always false and is omitted here). -/
def crawl (d : DirState) : List String := d.entries.map DirEntry.path

/-- DirCrawler.md5_hash: md5 of the file contents, streamed in chunks
through one accumulator, which hashes the whole contents. -/
def md5_hash_file (contents : List Nat) : String := md5hexStr contents

/-- DirCrawler.crawl_and_hash: for each crawled path, reuse the previous
record verbatim when its recorded mtime is at least the current one,
otherwise store a freshly computed (mtime, hash) pair. -/
def crawl_and_hash (d : DirState) (previous_results : Snap) : Snap :=
  d.entries.foldl (fun data e =>
    match alookup previous_results e.path with
    | some (pmtime, phash) =>
        if e.mtime ≤ pmtime then dictInsert data e.path (pmtime, phash)
        else dictInsert data e.path (e.mtime, md5_hash_file e.contents)
    | none => dictInsert data e.path (e.mtime, md5_hash_file e.contents)) []

/-- The record `crawl_and_hash` stores for one crawled file: the previous
record reused verbatim when its recorded mtime is at least the current
one, otherwise a freshly computed (current mtime, content hash) pair. -/
def newRec (prev : Snap) (e : DirEntry) : FileRec :=
  match alookup prev e.path with
  | some (pmt, ph) =>
      if e.mtime ≤ pmt then (pmt, ph) else (e.mtime, md5_hash_file e.contents)
  | none => (e.mtime, md5_hash_file e.contents)

/-- DirMonitor state: one crawler per configured root, plus the published
snapshot list. -/
structure Monitor : Type where
  crawlers : List DirState
  files : List Snap

/-- DirMonitor._crawl_all: build a complete fresh list, one snapshot per
crawler, pairing each crawler with its previous snapshot by index, then
replace the whole list. (The source indexes `self.files[i]`; under the
length invariant proved below this equals the pairwise walk.) -/
def crawl_all (crawlers : List DirState) (prevs : List Snap) : List Snap :=
  List.zipWith crawl_and_hash crawlers prevs

/-- DirMonitor.__init__: seed `files` with one empty container per root
(the source uses empty lists, for which membership tests behave like an
empty dict), then run one crawl. -/
def monitorInit (crawlers : List DirState) : Monitor :=
  { crawlers := crawlers,
    files := crawl_all crawlers (List.replicate crawlers.length []) }

/-- One background refresh cycle of DirMonitor._thread_main. -/
def monitorStep (m : Monitor) : Monitor :=
  { m with files := crawl_all m.crawlers m.files }

/-- Iterated refresh cycles. -/
def monitorIter : Nat → Monitor → Monitor
  | 0, m => m
  | n + 1, m => monitorIter n (monitorStep m)

/-! ### Filesystem and FileWriter -/

/-- The server-side filesystem: written files plus the set of paths on
which `open`/`write` raises (the environment that produces IOErrors). -/
structure FS : Type where
  files : List (String × List Nat)
  failing : List String

/-- os.path.join for a relative path under a root. -/
def pathJoin (root rel : String) : String := root ++ "/" ++ rel

/-- Model of base64.b64encode: an injective byte-to-string coding (the
concrete alphabet is irrelevant to every claim). -/
def b64encode (contents : List Nat) : String :=
  String.mk (contents.map Char.ofNat)

/-- Model of base64.b64decode: partial inverse, raising on input outside
the coding. -/
def b64decode (s : String) : Except String (List Nat) :=
  if s.data.all (fun c => c.toNat < 256) then .ok (s.data.map Char.toNat)
  else .error "binascii.Error"

/-- Open a path for writing and write the contents, raising on the
environment's failing paths. -/
def fsWrite (fs : FS) (path : String) (contents : List Nat) : Except String FS :=
  if path ∈ fs.failing then .error "IOError"
  else .ok { fs with files := dictInsert fs.files path contents }

/-- Inner loop of FileWriter.write over one batch: decode and write each
pair in iteration order. There is no per-file exception handler in the
source: the first raise aborts the rest of the batch. Returns the raised
error (if any) together with the filesystem state actually reached. -/
def writeBatch (root : String) : List (String × String) → FS → Except String Unit × FS
  | [], fs => (.ok (), fs)
  | (rel_path, b64contents) :: rest, fs =>
      match b64decode b64contents with
      | .error e => (.error e, fs)
      | .ok contents =>
          match fsWrite fs (pathJoin root rel_path) contents with
          | .error e => (.error e, fs)
          | .ok fs2 => writeBatch root rest fs2

/-- A (path, content) pair whose processing raises against the given
filesystem: either the base64 decode raises or the write to its joined
path does. -/
def pairFails (root : String) (kv : String × String) (fs : FS) : Prop :=
  isErr (b64decode kv.2) = true ∨ pathJoin root kv.1 ∈ fs.failing

/-- FileWriter.write: pair each batch with the configured root at the same
index (`self._dirs[i]` raises IndexError past the end); the `try` block
has no `except` clause, so any raise propagates after the `finally`
logging of totals. -/
def write : List String → List (List (String × String)) → FS →
    Except String Unit × FS
  | _, [], fs => (.ok (), fs)
  | [], _ :: _, fs => (.error "IndexError", fs)
  | root :: roots, batch :: batches, fs =>
      match writeBatch root batch fs with
      | (.ok _, fs2) => write roots batches fs2
      | (.error e, fs2) => (.error e, fs2)

/-! ### Server dispatcher (RemoteMessageHandler) -/

/-- Python `body[k]`: KeyError when absent. -/
def getKey (body : Body) (k : String) : Except String JVal :=
  match alookup body k with
  | some v => .ok v
  | none => .error "KeyError"

/-- A JSON-decoded snapshot record: the 2-list [mtime, hash] (unpacking a
differently shaped value raises, as the Python tuple unpacking does). -/
def jvalToRec : JVal → Except String FileRec
  | .jlist [.jnum mt, .jstr h] => .ok (mt, h)
  | _ => .error "TypeError: bad record"

/-- Entries of a JSON-decoded snapshot object. -/
def jvalToSnapEntries : List (String × JVal) → Except String Snap
  | [] => .ok []
  | (k, v) :: rest =>
      match jvalToRec v with
      | .error e => .error e
      | .ok r =>
          match jvalToSnapEntries rest with
          | .error e => .error e
          | .ok rs => .ok ((k, r) :: rs)

/-- A JSON-decoded snapshot (dict path -> [mtime, hash]). -/
def jvalToSnap : JVal → Except String Snap
  | .jobj kvs => jvalToSnapEntries kvs
  | _ => .error "TypeError: snapshot not a dict"

/-- Elements of a JSON-decoded snapshot list. -/
def jvalToSnapsList : List JVal → Except String (List Snap)
  | [] => .ok []
  | v :: rest =>
      match jvalToSnap v with
      | .error e => .error e
      | .ok s =>
          match jvalToSnapsList rest with
          | .error e => .error e
          | .ok ss => .ok (s :: ss)

/-- The `files` value of a DIFF_REQUEST body: list of snapshots. The
Python code consumes the JSON-decoded structure directly; this conversion
models the duck typing, raising where iteration or unpacking would. -/
def jvalToSnaps : JVal → Except String (List Snap)
  | .jlist xs => jvalToSnapsList xs
  | _ => .error "TypeError: files not a list"

/-- Entries of one uploaded-files dict (path -> base64 string). -/
def jvalToB64Entries : List (String × JVal) → Except String (List (String × String))
  | [] => .ok []
  | (k, .jstr s) :: rest =>
      match jvalToB64Entries rest with
      | .error e => .error e
      | .ok rs => .ok ((k, s) :: rs)
  | (_, _) :: _ => .error "TypeError: content not a string"

/-- Elements of the `uploaded_files` list. -/
def jvalToBatchesList : List JVal → Except String (List (List (String × String)))
  | [] => .ok []
  | .jobj kvs :: rest =>
      match jvalToB64Entries kvs with
      | .error e => .error e
      | .ok b =>
          match jvalToBatchesList rest with
          | .error e => .error e
          | .ok bs => .ok (b :: bs)
  | _ :: _ => .error "TypeError: batch not a dict"

/-- The `uploaded_files` value of an UPLOAD_REQUEST body. -/
def jvalToBatches : JVal → Except String (List (List (String × String)))
  | .jlist xs => jvalToBatchesList xs
  | _ => .error "TypeError: uploaded_files not a list"

/-- Encode a DiffResult into the DIFF_RESPONSE body value. -/
def diffToJVal (d : List (List String)) : JVal :=
  .jlist (d.map (fun l => .jlist (l.map JVal.jstr)))

/-- Encode one snapshot as its JSON value. -/
def snapToJVal (s : Snap) : JVal :=
  .jobj (s.map (fun kv => (kv.1, JVal.jlist [.jnum kv.2.1, .jstr kv.2.2])))

/-- Encode the snapshot list for a DIFF_REQUEST body. -/
def snapsToJVal (ss : List Snap) : JVal := .jlist (ss.map snapToJVal)

/-- Encode the uploaded-files batches for an UPLOAD_REQUEST body. -/
def batchesToJVal (bs : List (List (String × String))) : JVal :=
  .jlist (bs.map (fun b => .jobj (b.map (fun kv => (kv.1, JVal.jstr kv.2)))))

/-- RemoteMessageHandler.handle_message: dispatch on the request type.
PING_REQUEST(0) -> PING_RESPONSE(1); DIFF_REQUEST(2) -> DIFF_RESPONSE(3)
carrying the diff of the request snapshots against the monitor snapshots;
UPLOAD_REQUEST(4) -> write then UPLOAD_RESPONSE(5); anything else raises.
(In the source the `else` branch itself crashes with a NameError, since
its raise statement references the undefined names `message` and `error`;
either way an exception propagates out of the handler, which the server
loop does not catch, so the connection is torn down.) Returns the raised
error or the response, together with the filesystem state reached. -/
def handle_message (monitor_files : List Snap) (dirs : List String) (fs : FS)
    (req : Msg) (now : Int) : Except String Msg × FS :=
  if req.type = 0 then (.ok (msgInit 1 now), fs)
  else if req.type = 2 then
    match getKey req.body "files" with
    | .error e => (.error e, fs)
    | .ok filesJ =>
        match jvalToSnaps filesJ with
        | .error e => (.error e, fs)
        | .ok snaps =>
            match diff snaps monitor_files with
            | .error e => (.error e, fs)
            | .ok d =>
                (.ok { type := 3,
                       body := dictInsert (msgInit 3 now).body "diff" (diffToJVal d) },
                 fs)
  else if req.type = 4 then
    match getKey req.body "uploaded_files" with
    | .error e => (.error e, fs)
    | .ok upJ =>
        match jvalToBatches upJ with
        | .error e => (.error e, fs)
        | .ok batches =>
            match write dirs batches fs with
            | (.ok _, fs2) => (.ok (msgInit 5 now), fs2)
            | (.error e, fs2) => (.error e, fs2)
  else (.error "NameError: unhandled message type", fs)

/-! ### Client uploader (FileUploader) -/

/-- Contents of a file under one root, by relative path. -/
def dirLookup (d : DirState) (rel : String) : Option (List Nat) :=
  match d.entries.find? (fun e => e.path = rel) with
  | some e => some e.contents
  | none => none

/-- Inner loop of FileUploader._files_to_upload for one root: assert the
path is relative, read the file fresh from disk, base64-encode it, and
record it in the per-root dict. -/
def uploadDirFiles (d : DirState) : List String → Except String (List (String × String))
  | [] => .ok []
  | rel :: rest =>
      if isabs rel then .error "AssertionError: absolute path"
      else
        match dirLookup d rel with
        | none => .error "IOError: no such file"
        | some contents =>
            match uploadDirFiles d rest with
            | .error e => .error e
            | .ok cur => .ok ((rel, b64encode contents) :: cur)

/-- FileUploader._files_to_upload: one dict per entry of the diff list,
pairing by index with the configured roots (IndexError past the end). -/
def files_to_upload : List DirState → List (List String) →
    Except String (List (List (String × String)))
  | _, [] => .ok []
  | [], _ :: _ => .error "IndexError"
  | d :: ds, paths :: rest =>
      match uploadDirFiles d paths with
      | .error e => .error e
      | .ok cur =>
          match files_to_upload ds rest with
          | .error e => .error e
          | .ok results => .ok (cur :: results)

/-- The `diff` value of a DIFF_RESPONSE body, as the client consumes it. -/
def jvalToStrs : List JVal → Except String (List String)
  | [] => .ok []
  | .jstr s :: rest =>
      match jvalToStrs rest with
      | .error e => .error e
      | .ok ss => .ok (s :: ss)
  | _ :: _ => .error "TypeError: path not a string"

/-- Elements of the received diff list. -/
def jvalToStrListsAux : List JVal → Except String (List (List String))
  | [] => .ok []
  | .jlist ys :: rest =>
      match jvalToStrs ys with
      | .error e => .error e
      | .ok l =>
          match jvalToStrListsAux rest with
          | .error e => .error e
          | .ok ls => .ok (l :: ls)
  | _ :: _ => .error "TypeError: diff entry not a list"

/-- The received DiffResult (list of lists of relative paths). -/
def jvalToStrLists : JVal → Except String (List (List String))
  | .jlist xs => jvalToStrListsAux xs
  | _ => .error "TypeError: diff not a list"

/-- FileUploader.upload_files: build and send the DIFF_REQUEST (carrying
the monitor snapshots), receive the given DIFF_RESPONSE, log the length
of the first diff entry (IndexError when the list is empty), then always
build and send the UPLOAD_REQUEST and wait for the response. Returns the
two sent messages. -/
def upload_files (monitor_files : List Snap) (dirs : List DirState)
    (diff_response : Msg) (now : Int) : Except String (Msg × Msg) :=
  let diff_request : Msg :=
    { type := 2, body := dictInsert (msgInit 2 now).body "files" (snapsToJVal monitor_files) }
  match getKey diff_response.body "diff" with
  | .error e => .error e
  | .ok filesJ =>
      match jvalToStrLists filesJ with
      | .error e => .error e
      | .ok files =>
          match files with
          | [] => .error "IndexError: files[0]"
          | _ :: _ =>
              match files_to_upload dirs files with
              | .error e => .error e
              | .ok results =>
                  .ok (diff_request,
                       { type := 4,
                         body := dictInsert (msgInit 4 now).body "uploaded_files"
                           (batchesToJVal results) })

/-! ### Claim theorems -/

/-! ### Theorems -/

theorem alookup_dictInsert {α : Type} (d : List (String × α)) (k : String) (v : α)
    (key : String) :
    alookup (dictInsert d k v) key = if k = key then some v else alookup d key := by
  induction d with
  | nil => simp [dictInsert, alookup]
  | cons hd tl ih =>
    obtain ⟨k0, v0⟩ := hd
    simp only [dictInsert]
    by_cases h0 : k0 = k
    · rw [if_pos h0]
      by_cases hk : k = key
      · simp [alookup, hk]
      · have hk0 : ¬ k0 = key := by rw [h0]; exact hk
        simp [alookup, hk, hk0]
    · rw [if_neg h0]
      by_cases hk0 : k0 = key
      · have hk : ¬ k = key := fun h => h0 (hk0.trans h.symm)
        simp [alookup, hk0, hk]
      · simp [alookup, hk0, ih]

theorem alookup_eq_none_of_not_mem {α : Type} (d : List (String × α)) (key : String)
    (h : key ∉ dictKeys d) : alookup d key = none := by
  induction d with
  | nil => rfl
  | cons hd tl ih =>
    obtain ⟨k0, v0⟩ := hd
    simp only [dictKeys, List.map_cons, List.mem_cons, not_or] at h
    have h1 : ¬ k0 = key := fun hc => h.1 hc.symm
    simp only [alookup, if_neg h1]
    exact ih h.2

theorem alookup_isSome_of_mem {α : Type} (d : List (String × α)) (key : String)
    (h : key ∈ dictKeys d) : (alookup d key).isSome := by
  induction d with
  | nil => simp [dictKeys] at h
  | cons hd tl ih =>
    obtain ⟨k0, v0⟩ := hd
    by_cases hk : k0 = key
    · simp [alookup, hk]
    · simp only [dictKeys, List.map_cons, List.mem_cons] at h
      rcases h with h | h
      · exact absurd h.symm hk
      · simpa [alookup, hk] using ih h

/-- Lookup after a dict update: bindings from `new` win (with `new` having
unique keys), everything else falls back to `d`. -/
theorem alookup_dictUpdate {α : Type} (new : List (String × α)) (d : List (String × α))
    (key : String) (hnd : (dictKeys new).Nodup) :
    alookup (dictUpdate d new) key =
      match alookup new key with
      | some v => some v
      | none => alookup d key := by
  induction new generalizing d with
  | nil => simp [dictUpdate, alookup]
  | cons hd tl ih =>
    obtain ⟨k0, v0⟩ := hd
    simp only [dictKeys, List.map_cons, List.nodup_cons] at hnd
    have step : dictUpdate d ((k0, v0) :: tl) = dictUpdate (dictInsert d k0 v0) tl := rfl
    rw [step, ih (dictInsert d k0 v0) hnd.2]
    by_cases hk : k0 = key
    · subst hk
      have : alookup tl k0 = none :=
        alookup_eq_none_of_not_mem tl k0 (by simpa [dictKeys] using hnd.1)
      simp [alookup, this, alookup_dictInsert]
    · simp [alookup, hk, alookup_dictInsert]

theorem pyIdx_nonneg (n : Nat) (i : Int) (h : 0 ≤ i) :
    pyIdx n i = min i.toNat n := by
  simp [pyIdx, not_lt.mpr h]

theorem pyIdx_natCast (n b : Nat) : pyIdx n (b : Int) = min b n := by
  have hb : ¬ ((b : Int) < 0) := by omega
  simp only [pyIdx, if_neg hb]
  rfl

theorem pyslice_zero_take (l : List Nat) (b : Nat) :
    pyslice l 0 (b : Int) = l.take b := by
  unfold pyslice
  rw [show ((0 : Int) = ((0 : Nat) : Int)) from rfl, pyIdx_natCast, pyIdx_natCast]
  rw [min_eq_left (Nat.zero_le _), List.drop_zero]
  rcases le_total b l.length with h | h
  · rw [min_eq_left h]
  · rw [min_eq_right h, List.take_length, List.take_of_length_le h]

theorem unpack_i_pack_i (n : Int) (h1 : -2147483648 ≤ n) (h2 : n < 2147483648) :
    unpack_i (pack_i n) = n := by
  rw [pack_i, unpack_i]
  unfold beFold
  simp only [List.foldl_cons, List.foldl_nil]
  split
  · omega
  · omega

theorem hexOfBytes_length (l : List Nat) : (hexOfBytes l).length = 2 * l.length := by
  induction l with
  | nil => rfl
  | cons b rest ih => simp [hexOfBytes, ih]; omega

theorem md5bytes_length (msg : List Nat) : (md5bytes msg).length = 16 := by
  rw [md5bytes]
  obtain ⟨a, b, c, d⟩ := (chunks64 (md5pad msg)).foldl md5Block
    (1732584193, 4023233417, 2562383102, 271733878)
  simp [le32]

theorem md5hex_length (msg : List Nat) : (md5hex msg).length = 32 := by
  rw [md5hex, hexOfBytes_length, md5bytes_length]

theorem md5cat_length (args : List (List Nat)) : (md5cat args).length = 32 :=
  md5hex_length _

theorem decNat_encNat (n : Nat) (rest : List Nat) :
    decNat (encNat n ++ rest) = some (n, rest) := by
  induction n with
  | zero => rfl
  | succ m ih =>
    have : encNat (m + 1) ++ rest = 1 :: (encNat m ++ rest) := by
      simp [encNat, List.replicate_succ]
    rw [this, decNat, ih]

theorem decInt_encInt (n : Int) (rest : List Nat) :
    decInt (encInt n ++ rest) = some (n, rest) := by
  by_cases h : n < 0
  · simp only [encInt, if_pos h, List.cons_append, decInt, decNat_encNat]
    congr 1
    congr 1
    omega
  · simp only [encInt, if_neg h, List.cons_append, decInt, decNat_encNat]
    congr 1
    congr 1
    omega

theorem decStr_encStr (s : String) (rest : List Nat) :
    decStr (encStr s ++ rest) = some (s, rest) := by
  have hlen : s.data.length ≤ (s.data.map Char.toNat ++ rest).length := by
    simp
  have htake : (s.data.map Char.toNat ++ rest).take s.data.length = s.data.map Char.toNat := by
    rw [List.take_append_of_le_length (by simp), List.take_of_length_le (by simp)]
  have hdrop : (s.data.map Char.toNat ++ rest).drop s.data.length = rest := by
    rw [show s.data.length = (s.data.map Char.toNat).length by simp, List.drop_left]
  rw [encStr, List.append_assoc]
  simp only [decStr, decNat_encNat]
  rw [if_pos hlen, htake, hdrop]
  have hmap : (s.data.map Char.toNat).map Char.ofNat = s.data := by
    rw [List.map_map]
    have : (Char.ofNat ∘ Char.toNat) = id := by
      funext c
      exact Char.ofNat_toNat c
    rw [this, List.map_id]
  rw [hmap]

/-- Structural induction principle for `JVal` with membership hypotheses
for the nested lists. -/
theorem JVal.inductionOn (P : JVal → Prop)
    (hnum : ∀ n, P (JVal.jnum n))
    (hstr : ∀ s, P (JVal.jstr s))
    (hlist : ∀ xs, (∀ x ∈ xs, P x) → P (JVal.jlist xs))
    (hobj : ∀ kvs, (∀ kv ∈ kvs, P kv.2) → P (JVal.jobj kvs)) :
    ∀ v, P v
  | .jnum n => hnum n
  | .jstr s => hstr s
  | .jlist xs =>
      hlist xs (fun x hx =>
        have : sizeOf x < 1 + sizeOf xs := by
          have := List.sizeOf_lt_of_mem hx
          omega
        JVal.inductionOn P hnum hstr hlist hobj x)
  | .jobj kvs =>
      hobj kvs (fun kv hkv =>
        have : sizeOf kv.2 < 1 + sizeOf kvs := by
          have h1 := List.sizeOf_lt_of_mem hkv
          obtain ⟨k, v⟩ := kv
          simp only [Prod.mk.sizeOf_spec] at h1 ⊢
          omega
        JVal.inductionOn P hnum hstr hlist hobj kv.2)
  termination_by v => sizeOf v

theorem decL_encL (xs : List JVal) (hIH : ∀ x ∈ xs, JRTP x) :
    ∀ f rest, decL (szL xs + f) (encL xs ++ rest) = some (xs, rest) := by
  induction xs with
  | nil =>
    intro f rest
    rw [show szL [] + f = f + 1 from by simp [szL]; omega]
    simp [encL, decL]
  | cons x xs ih =>
    intro f rest
    have hx : ∀ f rest, decJ (szJ x + f) (encJ x ++ rest) = some (x, rest) :=
      hIH x (by simp)
    have hxs : ∀ y ∈ xs, JRTP y := fun y hy => hIH y (List.mem_cons_of_mem _ hy)
    rw [show szL (x :: xs) + f = (szJ x + (szL xs + f)) + 1 from by simp [szL]; omega]
    rw [show encL (x :: xs) ++ rest = 1 :: (encJ x ++ (encL xs ++ rest)) from by
      simp [encL]]
    simp only [decL]
    simp only [hx]
    rw [show szJ x + (szL xs + f) = szL xs + (szJ x + f) from by omega]
    simp only [ih hxs]

theorem decK_encK (kvs : List (String × JVal)) (hIH : ∀ kv ∈ kvs, JRTP kv.2) :
    ∀ f rest, decK (szK kvs + f) (encK kvs ++ rest) = some (kvs, rest) := by
  induction kvs with
  | nil =>
    intro f rest
    rw [show szK [] + f = f + 1 from by simp [szK]; omega]
    simp [encK, decK]
  | cons kv kvs ih =>
    intro f rest
    obtain ⟨k, v⟩ := kv
    have hv : ∀ f rest, decJ (szJ v + f) (encJ v ++ rest) = some (v, rest) :=
      hIH (k, v) (by simp)
    have hkvs : ∀ y ∈ kvs, JRTP y.2 := fun y hy => hIH y (List.mem_cons_of_mem _ hy)
    rw [show szK ((k, v) :: kvs) + f = (szJ v + (szK kvs + f)) + 1 from by
      simp [szK]; omega]
    rw [show encK ((k, v) :: kvs) ++ rest =
        1 :: (encStr k ++ (encJ v ++ (encK kvs ++ rest))) from by simp [encK]]
    simp only [decK, decStr_encStr]
    simp only [hv]
    rw [show szJ v + (szK kvs + f) = szK kvs + (szJ v + f) from by omega]
    simp only [ih hkvs]

theorem decJ_encJ (v : JVal) : JRTP v := by
  refine JVal.inductionOn JRTP ?_ ?_ ?_ ?_ v
  · intro n f rest
    rw [show szJ (JVal.jnum n) + f = f + 1 from by simp [szJ]; omega]
    rw [show encJ (JVal.jnum n) ++ rest = 0 :: (encInt n ++ rest) from by simp [encJ]]
    simp only [decJ, decInt_encInt]
  · intro s f rest
    rw [show szJ (JVal.jstr s) + f = f + 1 from by simp [szJ]; omega]
    rw [show encJ (JVal.jstr s) ++ rest = 1 :: (encStr s ++ rest) from by simp [encJ]]
    simp only [decJ, decStr_encStr]
  · intro xs hIH f rest
    rw [show szJ (JVal.jlist xs) + f = (szL xs + f) + 1 from by simp [szJ]; omega]
    rw [show encJ (JVal.jlist xs) ++ rest = 2 :: (encL xs ++ rest) from by simp [encJ]]
    simp only [decJ, decL_encL xs hIH]
  · intro kvs hIH f rest
    rw [show szJ (JVal.jobj kvs) + f = (szK kvs + f) + 1 from by simp [szJ]; omega]
    rw [show encJ (JVal.jobj kvs) ++ rest = 3 :: (encK kvs ++ rest) from by simp [encJ]]
    simp only [decJ, decK_encK kvs hIH]

theorem szL_le_encL (xs : List JVal) (h : ∀ x ∈ xs, szJ x ≤ (encJ x).length) :
    szL xs ≤ (encL xs).length := by
  induction xs with
  | nil => simp [szL, encL]
  | cons x xs ih =>
    have hx := h x (by simp)
    have hxs := ih (fun y hy => h y (List.mem_cons_of_mem _ hy))
    simp only [szL, encL, List.length_cons, List.length_append]
    omega

theorem szK_le_encK (kvs : List (String × JVal))
    (h : ∀ kv ∈ kvs, szJ kv.2 ≤ (encJ kv.2).length) :
    szK kvs ≤ (encK kvs).length := by
  induction kvs with
  | nil => simp [szK, encK]
  | cons kv kvs ih =>
    obtain ⟨k, v⟩ := kv
    have hv : szJ v ≤ (encJ v).length := h (k, v) (by simp)
    have hkvs := ih (fun y hy => h y (List.mem_cons_of_mem _ hy))
    simp only [szK, encK, List.length_cons, List.length_append]
    omega

theorem szJ_le_encJ (v : JVal) : szJ v ≤ (encJ v).length := by
  refine JVal.inductionOn (fun v => szJ v ≤ (encJ v).length) ?_ ?_ ?_ ?_ v
  · intro n
    simp [szJ, encJ]
  · intro s
    simp [szJ, encJ]
  · intro xs hIH
    have := szL_le_encL xs hIH
    simp only [szJ, encJ, List.length_cons]
    omega
  · intro kvs hIH
    have := szK_le_encK kvs hIH
    simp only [szJ, encJ, List.length_cons]
    omega

theorem jsonLoads_jsonDumps (body : Body) : jsonLoads (jsonDumps body) = some body := by
  rw [jsonDumps, jsonLoads]
  have hsz : szJ (JVal.jobj body) ≤ (encJ (JVal.jobj body)).length :=
    szJ_le_encJ _
  have h := decJ_encJ (JVal.jobj body)
    ((encJ (JVal.jobj body)).length + 1 - szJ (JVal.jobj body)) []
  rw [List.append_nil] at h
  rw [show (encJ (JVal.jobj body)).length + 1 =
      szJ (JVal.jobj body) +
        ((encJ (JVal.jobj body)).length + 1 - szJ (JVal.jobj body)) from by omega]
  rw [h]

theorem serdeMd5_length (token user data : List Nat) :
    (serdeMd5 token user data).length = 32 := md5cat_length _

/-- Length of a serialised frame. -/
theorem serialise_length (token user : List Nat) (m : Msg) :
    (serialise token user m).length = 40 + (jsonDumps m.body).length := by
  simp [serialise, serdeMd5_length]
  omega

theorem take_append_of_length_eq {α : Type} (a b : List α) (n : Nat)
    (h : a.length = n) : (a ++ b).take n = a := by
  subst h
  exact List.take_left a b

theorem drop_append_of_length_eq {α : Type} (a b : List α) (n : Nat)
    (h : a.length = n) : (a ++ b).drop n = b := by
  subst h
  exact List.drop_left a b

/-- Evaluation of `deserialise` on a buffer that starts with one complete
frame: arbitrary 4 type bytes, a 32-byte checksum field, a correctly
packed body length, the body, and arbitrary trailing bytes. -/
theorem deserialise_frame (token user : List Nat) (now : Int)
    (tb chk body rest : List Nat)
    (htb : tb.length = 4) (hchk : chk.length = 32)
    (hlen : (body.length : Int) < 2147483648) :
    deserialise token user now
        (tb ++ chk ++ pack_i (body.length : Int) ++ body ++ rest) =
      if chk ≠ serdeMd5 token user body then
        .error "Server aborting! MD5 mismatch"
      else
        match jsonLoads body with
        | none => .error "ValueError: malformed JSON body"
        | some kvs =>
            .ok (some { type := unpack_i tb,
                        body := dictUpdate (msgInit (unpack_i tb) now).body kvs },
                 rest) := by
  set input := tb ++ chk ++ pack_i (body.length : Int) ++ body ++ rest with hinput
  have hilen : input.length = 40 + body.length + rest.length := by
    simp [hinput, htb, hchk]
    omega
  have hheader : pyslice input 0 40 = tb ++ chk ++ pack_i (body.length : Int) := by
    rw [pyslice, pyIdx, pyIdx, if_neg (by omega), if_neg (by omega)]
    rw [show ((40 : Int)).toNat = 40 from by omega]
    rw [show ((0 : Int)).toNat = 0 from by omega]
    rw [min_eq_left (Nat.zero_le _), min_eq_left (by omega), List.drop_zero]
    rw [hinput]
    rw [List.take_append_of_le_length (by simp [htb, hchk] <;> omega)]
    rw [List.take_append_of_le_length (by simp [htb, hchk] <;> omega)]
    rw [List.take_of_length_le (by simp [htb, hchk] <;> omega)]
  have hty : (tb ++ chk ++ pack_i (body.length : Int)).take 4 = tb := by
    rw [List.append_assoc]
    exact take_append_of_length_eq _ _ 4 htb
  have hmd5 : ((tb ++ chk ++ pack_i (body.length : Int)).drop 4).take 32 = chk := by
    rw [List.append_assoc, drop_append_of_length_eq _ _ 4 htb]
    exact take_append_of_length_eq _ _ 32 hchk
  have hbb : ((tb ++ chk ++ pack_i (body.length : Int)).drop 36).take 4 =
      pack_i (body.length : Int) := by
    rw [drop_append_of_length_eq _ _ 36 (by simp [htb, hchk])]
    rw [List.take_of_length_le (by simp)]
  have hbbv : unpack_i (pack_i (body.length : Int)) = (body.length : Int) :=
    unpack_i_pack_i _ (by omega) hlen
  have hbody : pyslice input 40 (40 + (body.length : Int)) = body := by
    rw [pyslice, pyIdx, pyIdx, if_neg (by omega), if_neg (by omega)]
    rw [show (40 + (body.length : Int)).toNat = 40 + body.length from by omega]
    rw [show ((40 : Int)).toNat = 40 from by omega]
    rw [min_eq_left (by omega), min_eq_left (by omega)]
    rw [hinput]
    rw [take_append_of_length_eq _ _ (40 + body.length) (by simp [htb, hchk] <;> omega)]
    rw [drop_append_of_length_eq _ _ 40 (by simp [htb, hchk] <;> omega)]
  have hrest : pyslice input (40 + (body.length : Int)) (input.length : Int) = rest := by
    rw [pyslice, pyIdx, pyIdx, if_neg (by omega), if_neg (by omega)]
    rw [show (40 + (body.length : Int)).toNat = 40 + body.length from by omega]
    rw [show ((input.length : Int)).toNat = input.length from by omega]
    rw [min_eq_left (by omega), min_self, List.take_length]
    rw [hinput]
    rw [drop_append_of_length_eq _ _ (40 + body.length) (by simp [htb, hchk] <;> omega)]
  unfold deserialise
  rw [if_neg (by omega)]
  simp only [hheader, hty, hmd5, hbb, hbbv]
  rw [if_neg (by push_cast [hilen]; omega)]
  rw [hbody, hrest]

/-- Deserialising a serialised message succeeds with an empty remainder;
the result has the original type and the original body updated over the
fresh `ts` default. -/
theorem deserialise_serialise (token user : List Nat) (now : Int) (m : Msg)
    (hty1 : -2147483648 ≤ m.type) (hty2 : m.type < 2147483648)
    (hblen : ((jsonDumps m.body).length : Int) < 2147483648) :
    deserialise token user now (serialise token user m) =
      .ok (some { type := m.type,
                  body := dictUpdate (msgInit m.type now).body m.body }, []) := by
  have h := deserialise_frame token user now (pack_i m.type)
      (serdeMd5 token user (jsonDumps m.body)) (jsonDumps m.body) []
      (pack_i_length _) (serdeMd5_length _ _ _) hblen
  rw [List.append_nil] at h
  rw [serialise, h]
  rw [if_neg (fun hne => hne rfl)]
  simp only [jsonLoads_jsonDumps]
  rw [unpack_i_pack_i _ hty1 hty2]

/-- Updating the body dict over the fresh one-key `ts` dict preserves all
lookups, provided the body itself carries a `ts` key. -/
theorem dictUpdate_ts (body : Body) (tsv : JVal) (hnod : (dictKeys body).Nodup)
    (hts : "ts" ∈ dictKeys body) (k : String) :
    alookup (dictUpdate [("ts", tsv)] body) k = alookup body k := by
  rw [alookup_dictUpdate body _ k hnod]
  cases h : alookup body k with
  | some v => rfl
  | none =>
    have hk : ¬ ("ts" = k) := by
      intro hk
      subst hk
      have hs := alookup_isSome_of_mem body "ts" hts
      rw [h] at hs
      simp at hs
    simp [alookup, hk]

theorem diffDir_ok (dst : Snap) (s : Snap)
    (hrel : ∀ kv ∈ s, isabs kv.1 = false) :
    ∃ r, diffDir dst s = .ok r ∧ ∀ p, (p ∈ r ↔ DiffCond s dst p) := by
  induction s with
  | nil =>
    refine ⟨[], rfl, ?_⟩
    intro p
    simp [DiffCond]
  | cons kv rest ih =>
    obtain ⟨path, mt, h⟩ := kv
    have hhead : isabs path = false := hrel (path, (mt, h)) (by simp)
    obtain ⟨r, hr, hmem⟩ := ih (fun kv hkv => hrel kv (List.mem_cons_of_mem _ hkv))
    simp only [diffDir, hhead, Bool.false_eq_true, if_false, hr]
    cases hd : alookup dst path with
    | none =>
      refine ⟨path :: r, rfl, ?_⟩
      intro p
      constructor
      · intro hp
        rcases List.mem_cons.mp hp with rfl | hp2
        · exact ⟨mt, h, List.mem_cons_self _ _, Or.inl hd⟩
        · obtain ⟨mt2, h2, hm, hhit⟩ := (hmem p).mp hp2
          exact ⟨mt2, h2, List.mem_cons_of_mem _ hm, hhit⟩
      · rintro ⟨mt2, h2, hm, hhit⟩
        rcases List.mem_cons.mp hm with heq | hm2
        · have hp : p = path := congrArg Prod.fst heq
          rw [hp]
          exact List.mem_cons_self _ _
        · exact List.mem_cons_of_mem _ ((hmem p).mpr ⟨mt2, h2, hm2, hhit⟩)
    | some rec2 =>
      obtain ⟨mt2, h2⟩ := rec2
      dsimp only
      by_cases hne : h ≠ h2
      · rw [if_pos hne]
        refine ⟨path :: r, rfl, ?_⟩
        intro p
        constructor
        · intro hp
          rcases List.mem_cons.mp hp with rfl | hp2
          · exact ⟨mt, h, List.mem_cons_self _ _, Or.inr ⟨mt2, h2, hd, hne⟩⟩
          · obtain ⟨mt3, h3, hm, hhit⟩ := (hmem p).mp hp2
            exact ⟨mt3, h3, List.mem_cons_of_mem _ hm, hhit⟩
        · rintro ⟨mt3, h3, hm, hhit⟩
          rcases List.mem_cons.mp hm with heq | hm2
          · have : p = path := congrArg Prod.fst heq
            rw [this]
            exact List.mem_cons_self _ _
          · exact List.mem_cons_of_mem _ ((hmem p).mpr ⟨mt3, h3, hm2, hhit⟩)
      · rw [if_neg hne]
        push_neg at hne
        refine ⟨r, rfl, ?_⟩
        intro p
        rw [hmem p]
        constructor
        · rintro ⟨mt3, h3, hm, hhit⟩
          exact ⟨mt3, h3, List.mem_cons_of_mem _ hm, hhit⟩
        · rintro ⟨mt3, h3, hm, hhit⟩
          rcases List.mem_cons.mp hm with heq | hm2
          · have hp : p = path := congrArg Prod.fst heq
            have hh3 : h3 = h := by
              have := congrArg (fun q => q.2.2) heq
              simpa using this
            subst hp
            subst hh3
            rcases hhit with hnone | ⟨mt4, h4, hsome, hne4⟩
            · rw [hd] at hnone
              cases hnone
            · rw [hd] at hsome
              have hpair : (mt2, h2) = (mt4, h4) := by injection hsome
              have hh42 : h2 = h4 := congrArg Prod.snd hpair
              exact (hne4 (hne.trans hh42)).elim
          · exact ⟨mt3, h3, hm2, hhit⟩

theorem diffAll_ok : ∀ (src dst : List Snap), src.length = dst.length →
    (∀ s ∈ src, ∀ kv ∈ s, isabs kv.1 = false) →
    ∃ res, diffAll src dst = .ok res ∧ res.length = src.length ∧
      ∀ i, i < src.length → ∀ p,
        (p ∈ res.getD i [] ↔ DiffCond (src.getD i []) (dst.getD i []) p)
  | [], [], _, _ => ⟨[], rfl, rfl, by intro i hi; simp at hi⟩
  | s :: ss, d :: ds, hlen, hrel => by
    obtain ⟨r, hr, hmem⟩ := diffDir_ok d s (hrel s (by simp))
    obtain ⟨res, hres, hlen2, hmems⟩ :=
      diffAll_ok ss ds (by simpa using hlen)
        (fun s2 hs2 => hrel s2 (List.mem_cons_of_mem _ hs2))
    refine ⟨r :: res, ?_, by simpa using hlen2, ?_⟩
    · simp only [diffAll, hr, hres]
    · intro i hi p
      cases i with
      | zero => simpa using hmem p
      | succ j =>
        simp only [List.getD_cons_succ]
        exact hmems j (by simpa using hi) p

theorem crawl_and_hash_eq (d : DirState) (prev : Snap) :
    crawl_and_hash d prev =
      d.entries.foldl (fun data e => dictInsert data e.path (newRec prev e)) [] := by
  have hf : (fun (data : Snap) e =>
      match alookup prev e.path with
      | some (pmt, ph) =>
          if e.mtime ≤ pmt then dictInsert data e.path (pmt, ph)
          else dictInsert data e.path (e.mtime, md5_hash_file e.contents)
      | none => dictInsert data e.path (e.mtime, md5_hash_file e.contents)) =
      (fun (data : Snap) e => dictInsert data e.path (newRec prev e)) := by
    funext data e
    unfold newRec
    cases alookup prev e.path with
    | none => rfl
    | some r =>
      obtain ⟨pmt, ph⟩ := r
      by_cases hm : e.mtime ≤ pmt <;> simp [hm]
  rw [crawl_and_hash, hf]

theorem foldl_dictInsert_not_mem {α : Type} (val : DirEntry → α)
    (entries : List DirEntry) (init : List (String × α)) (p : String)
    (hp : ∀ e ∈ entries, e.path ≠ p) :
    alookup (entries.foldl (fun data e => dictInsert data e.path (val e)) init) p =
      alookup init p := by
  induction entries generalizing init with
  | nil => rfl
  | cons e rest ih =>
    rw [List.foldl_cons, ih _ (fun x hx => hp x (List.mem_cons_of_mem _ hx))]
    rw [alookup_dictInsert]
    rw [if_neg (hp e (List.mem_cons_self _ _))]

theorem foldl_dictInsert_mem {α : Type} (val : DirEntry → α)
    (entries : List DirEntry) (init : List (String × α)) (e : DirEntry)
    (he : e ∈ entries) (hnod : (entries.map DirEntry.path).Nodup) :
    alookup (entries.foldl (fun data x => dictInsert data x.path (val x)) init)
      e.path = some (val e) := by
  induction entries generalizing init with
  | nil => cases he
  | cons e0 rest ih =>
    simp only [List.map_cons, List.nodup_cons] at hnod
    rw [List.foldl_cons]
    rcases List.mem_cons.mp he with rfl | hrest
    · have hnotin : ∀ x ∈ rest, x.path ≠ e.path := by
        intro x hx heq
        exact hnod.1 (heq ▸ List.mem_map_of_mem DirEntry.path hx)
      rw [foldl_dictInsert_not_mem val rest _ e.path hnotin]
      rw [alookup_dictInsert, if_pos rfl]
    · exact ih _ hrest hnod.2

theorem foldl_dictInsert_isSome {α : Type} (val : DirEntry → α)
    (entries : List DirEntry) (init : List (String × α)) (p : String) :
    ((alookup (entries.foldl (fun data e => dictInsert data e.path (val e)) init)
        p).isSome = true) ↔
      (p ∈ entries.map DirEntry.path ∨ (alookup init p).isSome = true) := by
  induction entries generalizing init with
  | nil => simp
  | cons e rest ih =>
    rw [List.foldl_cons, ih]
    by_cases hp : e.path = p
    · simp [alookup_dictInsert, hp]
    · simp only [alookup_dictInsert, if_neg hp, List.map_cons, List.mem_cons]
      constructor
      · rintro (h | h)
        · exact Or.inl (Or.inr h)
        · exact Or.inr h
      · rintro (h | h)
        · rcases h with h | h
          · exact absurd h.symm hp
          · exact Or.inl h
        · exact Or.inr h

theorem crawl_all_length (crawlers : List DirState) (prevs : List Snap)
    (h : prevs.length = crawlers.length) :
    (crawl_all crawlers prevs).length = crawlers.length := by
  simp [crawl_all, h]

theorem zipWith_getD (f : DirState → Snap → Snap) :
    ∀ (as : List DirState) (bs : List Snap) (i : Nat), i < as.length →
      i < bs.length →
      (List.zipWith f as bs).getD i [] = f (as.getD i ⟨[]⟩) (bs.getD i []) := by
  intro as
  induction as with
  | nil => intro bs i hi _; simp at hi
  | cons a rest ih =>
    intro bs i hi hbi
    cases bs with
    | nil => simp at hbi
    | cons b bs2 =>
      cases i with
      | zero => simp
      | succ j =>
        simp only [List.zipWith_cons_cons, List.getD_cons_succ]
        exact ih bs2 j (by simpa using hi) (by simpa using hbi)

theorem monitorIter_crawlers : ∀ (n : Nat) (m : Monitor),
    (monitorIter n m).crawlers = m.crawlers
  | 0, _ => rfl
  | n + 1, m => monitorIter_crawlers n (monitorStep m)

theorem monitorIter_succ : ∀ (n : Nat) (m : Monitor),
    monitorIter (n + 1) m = monitorStep (monitorIter n m)
  | 0, _ => rfl
  | n + 1, m => monitorIter_succ n (monitorStep m)

theorem monitor_files_length (crawlers : List DirState) :
    ∀ n, (monitorIter n (monitorInit crawlers)).files.length = crawlers.length := by
  intro n
  induction n with
  | zero =>
    simp [monitorIter, monitorInit]
    exact crawl_all_length _ _ (by simp)
  | succ k ih =>
    rw [monitorIter_succ]
    show (crawl_all (monitorIter k (monitorInit crawlers)).crawlers
      (monitorIter k (monitorInit crawlers)).files).length = crawlers.length
    rw [monitorIter_crawlers]
    exact crawl_all_length _ _ (by rw [ih]; rfl)

theorem writeBatch_ok_append (root : String) (pre : List (String × String)) :
    ∀ (fs fs2 : FS), writeBatch root pre fs = (.ok (), fs2) →
    ∀ (kv : String × String) (post : List (String × String)),
      pairFails root kv fs2 →
      isErr (writeBatch root (pre ++ kv :: post) fs).1 = true ∧
        (writeBatch root (pre ++ kv :: post) fs).2 = fs2 := by
  induction pre with
  | nil =>
    intro fs fs2 hpre kv post hfail
    have hfs : fs = fs2 := congrArg Prod.snd hpre
    subst hfs
    obtain ⟨rel, b64⟩ := kv
    rw [List.nil_append]
    cases hb : b64decode b64 with
    | error e =>
      simp [writeBatch, hb, isErr]
    | ok contents =>
      rcases hfail with hdec | hpath
      · rw [hb] at hdec
        simp [isErr] at hdec
      · simp [writeBatch, hb, fsWrite, if_pos hpath, isErr]
  | cons p pre ih =>
    intro fs fs2 hpre kv post hfail
    obtain ⟨rel, b64⟩ := p
    rw [List.cons_append]
    cases hb : b64decode b64 with
    | error e =>
      simp only [writeBatch, hb] at hpre
      have := congrArg Prod.fst hpre
      simp at this
    | ok contents =>
      simp only [writeBatch, hb] at hpre
      cases hw : fsWrite fs (pathJoin root rel) contents with
      | error e =>
        simp only [hw] at hpre
        have := congrArg Prod.fst hpre
        simp at this
      | ok fs3 =>
        simp only [hw] at hpre
        simp only [writeBatch, hb, hw]
        exact ih fs3 fs2 hpre kv post hfail

theorem files_to_upload_empties :
    ∀ (dirs : List DirState) (n : Nat), n ≤ dirs.length →
      files_to_upload dirs (List.replicate n []) = .ok (List.replicate n []) := by
  intro dirs n
  induction n generalizing dirs with
  | zero => intro _; simp [files_to_upload]
  | succ m ih =>
    intro h
    cases dirs with
    | nil => simp at h
    | cons d ds =>
      rw [List.replicate_succ]
      show files_to_upload (d :: ds) ([] :: List.replicate m []) = _
      simp only [files_to_upload, uploadDirFiles]
      rw [ih ds (by simpa using h)]
      rw [List.replicate_succ]

theorem jvalToStrLists_empties (n : Nat) :
    jvalToStrLists (JVal.jlist (List.replicate n (JVal.jlist []))) =
      .ok (List.replicate n []) := by
  rw [jvalToStrLists]
  induction n with
  | zero => rfl
  | succ m ih =>
    rw [List.replicate_succ, List.replicate_succ]
    simp only [jvalToStrListsAux, jvalToStrs, ih]

theorem batchesToJVal_empties (n : Nat) :
    batchesToJVal (List.replicate n []) =
      JVal.jlist (List.replicate n (JVal.jobj [])) := by
  simp [batchesToJVal, List.map_replicate]

/-- C1: Round-trip of the wire codec. For a fixed token and OS user name,
deserialising a serialised message consumes the whole buffer and returns a
message with the original type whose body is dict-equal to the original
body, timestamp included — provided the body is a dict carrying the `ts`
key (as every constructed Message does) and the type and body length are
within the packable 32-bit range. -/
theorem C1_roundtrip (token user : List Nat) (now : Int) (m : Msg)
    (hty1 : -2147483648 ≤ m.type) (hty2 : m.type < 2147483648)
    (hblen : ((jsonDumps m.body).length : Int) < 2147483648)
    (hnod : (dictKeys m.body).Nodup) (hts : "ts" ∈ dictKeys m.body) :
    deserialise token user now (serialise token user m) =
      .ok (some { type := m.type,
                  body := dictUpdate (msgInit m.type now).body m.body }, []) ∧
    DictEquiv (dictUpdate (msgInit m.type now).body m.body) m.body := by
  refine ⟨deserialise_serialise token user now m hty1 hty2 hblen, ?_⟩
  intro k
  exact dictUpdate_ts m.body (JVal.jnum now) hnod hts k

theorem C1_roundtrip_witness :
    (-2147483648 ≤ (2 : Int)) ∧ ((2 : Int) < 2147483648) ∧
    (((jsonDumps [("ts", JVal.jnum 5), ("files", JVal.jlist [])]).length : Int) <
      2147483648) ∧
    (dictKeys [("ts", JVal.jnum 5), ("files", JVal.jlist [])]).Nodup ∧
    "ts" ∈ dictKeys [("ts", JVal.jnum 5), ("files", JVal.jlist [])] ∧
    (deserialise (strBytes "secret12") (strBytes "user") 9
        (serialise (strBytes "secret12") (strBytes "user")
          ⟨2, [("ts", JVal.jnum 5), ("files", JVal.jlist [])]⟩) =
      .ok (some ⟨2, dictUpdate (msgInit 2 9).body
          [("ts", JVal.jnum 5), ("files", JVal.jlist [])]⟩, []) ∧
      DictEquiv
        (dictUpdate (msgInit 2 9).body [("ts", JVal.jnum 5), ("files", JVal.jlist [])])
        [("ts", JVal.jnum 5), ("files", JVal.jlist [])]) :=
  ⟨by decide, by decide, by decide, by decide, by decide,
   C1_roundtrip (strBytes "secret12") (strBytes "user") 9
     ⟨2, [("ts", JVal.jnum 5), ("files", JVal.jlist [])]⟩
     (by decide) (by decide) (by decide) (by decide) (by decide)⟩

/-- C2: Checksum enforcement. Part one: on any full frame whose checksum
field differs from the recomputed keyed checksum over (user, body, token),
deserialise raises the protocol integrity error instead of returning a
message. Part two: mutating a single body byte of a serialised message
while keeping the original checksum field makes deserialisation raise that
error whenever the keyed checksum of the mutated body differs from the
original one (the exact condition the code tests; the witness exhibits a
concrete mutation where the MD5 values indeed differ). -/
theorem C2_checksum_enforcement :
    (∀ (token user : List Nat) (now : Int) (tb chk body rest : List Nat),
      tb.length = 4 → chk.length = 32 → ((body.length : Int) < 2147483648) →
      chk ≠ serdeMd5 token user body →
      deserialise token user now
          (tb ++ chk ++ pack_i (body.length : Int) ++ body ++ rest) =
        .error "Server aborting! MD5 mismatch") ∧
    (∀ (token user : List Nat) (now : Int) (m : Msg) (i : Nat) (b : Nat),
      i < (jsonDumps m.body).length →
      (((jsonDumps m.body).length : Int) < 2147483648) →
      serdeMd5 token user ((jsonDumps m.body).set i b) ≠
        serdeMd5 token user (jsonDumps m.body) →
      deserialise token user now
          (pack_i m.type ++ serdeMd5 token user (jsonDumps m.body) ++
            pack_i ((jsonDumps m.body).length : Int) ++ (jsonDumps m.body).set i b) =
        .error "Server aborting! MD5 mismatch") := by
  constructor
  · intro token user now tb chk body rest htb hchk hlen hne
    rw [deserialise_frame token user now tb chk body rest htb hchk hlen]
    rw [if_pos hne]
  · intro token user now m i b hi hlen hne
    have hset : ((jsonDumps m.body).set i b).length = (jsonDumps m.body).length :=
      List.length_set _ _ _
    have h := deserialise_frame token user now (pack_i m.type)
        (serdeMd5 token user (jsonDumps m.body)) ((jsonDumps m.body).set i b) []
        (pack_i_length _) (serdeMd5_length _ _ _) (by rw [hset]; exact hlen)
    rw [List.append_nil] at h
    rw [show pack_i ((((jsonDumps m.body).set i b).length : Nat) : Int) =
        pack_i ((jsonDumps m.body).length : Int) from by rw [hset]] at h
    rw [h, if_pos (Ne.symm hne)]

theorem C2_checksum_enforcement_witness :
    ((0 : Nat) < (jsonDumps [("ts", JVal.jnum 1)]).length) ∧
    (((jsonDumps [("ts", JVal.jnum 1)]).length : Int) < 2147483648) ∧
    (serdeMd5 (strBytes "tok45678") (strBytes "u")
        ((jsonDumps [("ts", JVal.jnum 1)]).set 0 255) ≠
      serdeMd5 (strBytes "tok45678") (strBytes "u") (jsonDumps [("ts", JVal.jnum 1)])) ∧
    deserialise (strBytes "tok45678") (strBytes "u") 0
        (pack_i (4 : Int) ++
          serdeMd5 (strBytes "tok45678") (strBytes "u") (jsonDumps [("ts", JVal.jnum 1)]) ++
          pack_i ((jsonDumps [("ts", JVal.jnum 1)]).length : Int) ++
          (jsonDumps [("ts", JVal.jnum 1)]).set 0 255) =
      .error "Server aborting! MD5 mismatch" :=
  ⟨by decide, by decide, by decide,
   C2_checksum_enforcement.2 (strBytes "tok45678") (strBytes "u") 0
     ⟨4, [("ts", JVal.jnum 1)]⟩ 0 255 (by decide) (by decide) (by decide)⟩

/-- C6: Partial-input stability of the deserialiser. A buffer shorter than
the 40 header bytes is returned unchanged with no message; a buffer with a
full header but fewer than 40 plus the decoded body length bytes likewise.
(The function is pure, so repeated calls on a growing buffer are safe.) -/
theorem C6_partial_input (token user : List Nat) (now : Int) (input : List Nat) :
    (input.length < 40 → deserialise token user now input = .ok (none, input)) ∧
    (40 ≤ input.length → (input.length : Int) < 40 + bodyLenOf input →
      deserialise token user now input = .ok (none, input)) := by
  constructor
  · intro h
    unfold deserialise
    rw [if_pos h]
  · intro h1 h2
    unfold deserialise
    rw [if_neg (by omega)]
    rw [bodyLenOf] at h2
    rw [if_pos h2]

theorem C6_partial_input_witness :
    (([] : List Nat).length < 40) ∧
    deserialise (strBytes "tok45678") (strBytes "u") 0 [] = .ok (none, []) ∧
    (40 ≤ (pack_i 0 ++ List.replicate 32 0 ++ pack_i 5).length) ∧
    (((pack_i 0 ++ List.replicate 32 0 ++ pack_i 5).length : Int) <
      40 + bodyLenOf (pack_i 0 ++ List.replicate 32 0 ++ pack_i 5)) ∧
    deserialise (strBytes "tok45678") (strBytes "u") 0
        (pack_i 0 ++ List.replicate 32 0 ++ pack_i 5) =
      .ok (none, pack_i 0 ++ List.replicate 32 0 ++ pack_i 5) :=
  ⟨by decide,
   (C6_partial_input (strBytes "tok45678") (strBytes "u") 0 []).1 (by decide),
   by decide, by decide,
   (C6_partial_input (strBytes "tok45678") (strBytes "u") 0
     (pack_i 0 ++ List.replicate 32 0 ++ pack_i 5)).2 (by decide) (by decide)⟩

/-- C10 counterexample: a full frame with a correct checksum over its
(empty) body on which deserialise raises instead of returning a message —
the body is not a parseable JSON object, so the claim as stated fails. -/
theorem C10_counterexample :
    isErr (deserialise (strBytes "tok45678") (strBytes "user") 0
      (pack_i 7 ++ serdeMd5 (strBytes "tok45678") (strBytes "user") [] ++
        pack_i 0 ++ [])) = true := by
  decide

/-- C10 (amended): the codec performs no validation of the type field —
for every full frame with a correct checksum whose body parses as a JSON
object, deserialise returns a message carrying whatever 4-byte signed
integer the type field decodes to, including values outside 0-5. -/
theorem C10_no_type_validation (token user : List Nat) (now : Int)
    (tb body rest : List Nat) (kvs : Body)
    (htb : tb.length = 4) (hlen : (body.length : Int) < 2147483648)
    (hjson : jsonLoads body = some kvs) :
    deserialise token user now
        (tb ++ serdeMd5 token user body ++ pack_i (body.length : Int) ++
          body ++ rest) =
      .ok (some { type := unpack_i tb,
                  body := dictUpdate (msgInit (unpack_i tb) now).body kvs },
           rest) := by
  rw [deserialise_frame token user now tb (serdeMd5 token user body) body rest
    htb (serdeMd5_length _ _ _) hlen]
  rw [if_neg (fun hne => hne rfl)]
  simp only [hjson]

theorem C10_no_type_validation_witness :
    (([255, 255, 255, 255] : List Nat).length = 4) ∧
    (((jsonDumps [("ts", JVal.jnum 3)]).length : Int) < 2147483648) ∧
    jsonLoads (jsonDumps [("ts", JVal.jnum 3)]) = some [("ts", JVal.jnum 3)] ∧
    unpack_i [255, 255, 255, 255] = -1 ∧
    deserialise (strBytes "tok45678") (strBytes "user") 0
        ([255, 255, 255, 255] ++
          serdeMd5 (strBytes "tok45678") (strBytes "user")
            (jsonDumps [("ts", JVal.jnum 3)]) ++
          pack_i ((jsonDumps [("ts", JVal.jnum 3)]).length : Int) ++
          jsonDumps [("ts", JVal.jnum 3)] ++ []) =
      .ok (some { type := unpack_i [255, 255, 255, 255],
                  body := dictUpdate (msgInit (unpack_i [255, 255, 255, 255]) 0).body
                    [("ts", JVal.jnum 3)] }, []) :=
  ⟨by decide, by decide, jsonLoads_jsonDumps _, by decide,
   C10_no_type_validation (strBytes "tok45678") (strBytes "user") 0
     [255, 255, 255, 255] (jsonDumps [("ts", JVal.jnum 3)]) [] [("ts", JVal.jnum 3)]
     (by decide) (by decide) (jsonLoads_jsonDumps _)⟩

/-- C3: Diff correctness. For snapshot lists of equal length whose source
paths are all relative (the data-model invariant the code asserts), diff
returns one entry per index containing exactly the source paths that are
absent from the destination snapshot at that index or carry a different
hash there (so no destination-only path ever appears); for lists of
different lengths diff raises the fatal configuration error. -/
theorem C3_diff_correct :
    (∀ src dst : List Snap, src.length = dst.length →
      (∀ s ∈ src, ∀ kv ∈ s, isabs kv.1 = false) →
      ∃ res, diff src dst = .ok res ∧ DiffOk src dst res) ∧
    (∀ src dst : List Snap, src.length ≠ dst.length →
      isErr (diff src dst) = true) := by
  constructor
  · intro src dst hlen hrel
    obtain ⟨res, hres, hl, hmem⟩ := diffAll_ok src dst hlen hrel
    refine ⟨res, ?_, hl, hmem⟩
    rw [diff, if_pos hlen]
    exact hres
  · intro src dst hlen
    rw [diff, if_neg hlen]
    rfl

theorem C3_diff_correct_witness :
    (([[("a", ((1 : Int), "h1"))]] : List Snap).length =
      ([[("a", ((1 : Int), "h2"))]] : List Snap).length) ∧
    (∀ s ∈ ([[("a", ((1 : Int), "h1"))]] : List Snap), ∀ kv ∈ s, isabs kv.1 = false) ∧
    (∃ res, diff [[("a", ((1 : Int), "h1"))]] [[("a", ((1 : Int), "h2"))]] = .ok res ∧
      DiffOk [[("a", ((1 : Int), "h1"))]] [[("a", ((1 : Int), "h2"))]] res) ∧
    (([] : List Snap).length ≠ ([[]] : List Snap).length) ∧
    isErr (diff ([] : List Snap) [[]]) = true :=
  ⟨rfl, by decide,
   C3_diff_correct.1 [[("a", ((1 : Int), "h1"))]] [[("a", ((1 : Int), "h2"))]]
     rfl (by decide),
   by decide, C3_diff_correct.2 [] [[]] (by decide)⟩

/-- C4 counterexample: a batch in which the first pair's write raises; the
remaining pair of the same batch is NOT written (the claim asserts the
remaining files are still written), and the call returns the raised error.
-/
theorem C4_counterexample :
    write ["d"] [[("b", "x"), ("a", "y")]] ⟨[], ["d/b"]⟩ =
      (.error "IOError", ⟨[], ["d/b"]⟩) ∧
    alookup (write ["d"] [[("b", "x"), ("a", "y")]] ⟨[], ["d/b"]⟩).2.files "d/a" =
      none := by
  constructor
  · rfl
  · rfl

/-- C4 (amended): when decoding or writing one (path, content) pair raises,
the whole batch is aborted: the pairs before it (in iteration order)
remain written with no rollback, the failing pair and everything after it
in the batch — and all later batches — are not written, only a summary
count is logged by the finally clause, and the error propagates so the
enclosing response is aborted. -/
theorem C4_batch_abort (root : String) (roots : List String)
    (pre post : List (String × String)) (kv : String × String)
    (more : List (List (String × String))) (fs fs2 : FS)
    (hpre : writeBatch root pre fs = (.ok (), fs2))
    (hfail : pairFails root kv fs2) :
    isErr (write (root :: roots) ((pre ++ kv :: post) :: more) fs).1 = true ∧
    (write (root :: roots) ((pre ++ kv :: post) :: more) fs).2 = fs2 := by
  obtain ⟨h1, h2⟩ := writeBatch_ok_append root pre fs fs2 hpre kv post hfail
  cases hwb : writeBatch root (pre ++ kv :: post) fs with
  | mk res fs3 =>
    rw [hwb] at h1 h2
    cases res with
    | ok u => simp [isErr] at h1
    | error e =>
      simp only [write, hwb]
      exact ⟨rfl, h2⟩

theorem C4_batch_abort_witness :
    (writeBatch "d" [("c", "z")] ⟨[], ["d/b"]⟩ =
      (.ok (), ⟨[("d/c", [122])], ["d/b"]⟩)) ∧
    pairFails "d" ("b", "x") ⟨[("d/c", [122])], ["d/b"]⟩ ∧
    (isErr (write ["d"] [[("c", "z"), ("b", "x"), ("a", "y")]] ⟨[], ["d/b"]⟩).1 =
      true ∧
     (write ["d"] [[("c", "z"), ("b", "x"), ("a", "y")]] ⟨[], ["d/b"]⟩).2 =
      ⟨[("d/c", [122])], ["d/b"]⟩) :=
  ⟨rfl, Or.inr (by decide),
   C4_batch_abort "d" [] [("c", "z")] [("a", "y")] ("b", "x") []
     ⟨[], ["d/b"]⟩ ⟨[("d/c", [122])], ["d/b"]⟩ rfl (Or.inr (by decide))⟩

/-- C5: Hash reuse. With distinct crawled paths (as a directory walk
yields), the snapshot returned by crawl_and_hash maps each crawled path to
the previous record — modified time and hash reused verbatim — exactly
when the previous snapshot records that path with a modified time at least
the current one, and otherwise to a freshly computed (current mtime,
content hash) pair; and its key set is exactly the crawled paths. (The
function builds a new dict and only reads `previous`, which is therefore
never mutated.) -/
theorem C5_hash_reuse (d : DirState) (prev : Snap) (hnod : (crawl d).Nodup) :
    (∀ e ∈ d.entries,
      alookup (crawl_and_hash d prev) e.path = some (newRec prev e)) ∧
    (∀ p : String,
      ((alookup (crawl_and_hash d prev) p).isSome = true) ↔ p ∈ crawl d) := by
  constructor
  · intro e he
    rw [crawl_and_hash_eq]
    exact foldl_dictInsert_mem (newRec prev) d.entries [] e he hnod
  · intro p
    rw [crawl_and_hash_eq, foldl_dictInsert_isSome]
    simp [crawl, alookup]

theorem C5_hash_reuse_witness :
    (crawl ⟨[⟨"a", 5, [1, 2]⟩, ⟨"b", 3, [7]⟩]⟩).Nodup ∧
    alookup (crawl_and_hash ⟨[⟨"a", 5, [1, 2]⟩, ⟨"b", 3, [7]⟩]⟩ [("a", (9, "old"))])
        "a" =
      some (newRec [("a", (9, "old"))] ⟨"a", 5, [1, 2]⟩) ∧
    newRec [("a", (9, "old"))] ⟨"a", 5, [1, 2]⟩ = (9, "old") :=
  ⟨by decide,
   (C5_hash_reuse ⟨[⟨"a", 5, [1, 2]⟩, ⟨"b", 3, [7]⟩]⟩ [("a", (9, "old"))]
     (by decide)).1 ⟨"a", 5, [1, 2]⟩ (by decide),
   by decide⟩

/-- C7: Response parity and unknown-type rejection. Whenever the dispatcher
returns a response (for the known request types 0, 2, 4), its numeric type
code is odd; for any other request type — odd manufactured types included —
the dispatcher raises, so the server loop (which catches only socket
errors) tears the connection down. -/
theorem C7_dispatch (monitor_files : List Snap) (dirs : List String) (fs : FS)
    (req : Msg) (now : Int) :
    (∀ resp : Msg, (handle_message monitor_files dirs fs req now).1 = .ok resp →
      resp.type % 2 = 1) ∧
    (req.type ≠ 0 → req.type ≠ 2 → req.type ≠ 4 →
      isErr (handle_message monitor_files dirs fs req now).1 = true) := by
  unfold handle_message
  by_cases h0 : req.type = 0
  · rw [if_pos h0]
    refine ⟨?_, fun hne0 _ _ => absurd h0 hne0⟩
    intro resp h
    have hresp : msgInit 1 now = resp := by simpa using h
    rw [← hresp]
    rfl
  · rw [if_neg h0]
    by_cases h2 : req.type = 2
    · rw [if_pos h2]
      refine ⟨?_, fun _ hne2 _ => absurd h2 hne2⟩
      intro resp h
      cases hg : getKey req.body "files" with
      | error e =>
        rw [hg] at h
        simp at h
      | ok filesJ =>
        simp only [hg] at h
        cases hs : jvalToSnaps filesJ with
        | error e =>
          simp only [hs] at h
          simp at h
        | ok snaps =>
          simp only [hs] at h
          cases hd : diff snaps monitor_files with
          | error e =>
            simp only [hd] at h
            simp at h
          | ok d0 =>
            simp only [hd] at h
            have hresp :
                Msg.mk 3 (dictInsert (msgInit 3 now).body "diff" (diffToJVal d0)) =
                  resp := by simpa using h
            rw [← hresp]
            rfl
    · rw [if_neg h2]
      by_cases h4 : req.type = 4
      · rw [if_pos h4]
        refine ⟨?_, fun _ _ hne4 => absurd h4 hne4⟩
        intro resp h
        cases hg : getKey req.body "uploaded_files" with
        | error e =>
          rw [hg] at h
          simp at h
        | ok upJ =>
          simp only [hg] at h
          cases hb : jvalToBatches upJ with
          | error e =>
            simp only [hb] at h
            simp at h
          | ok batches =>
            simp only [hb] at h
            cases hw : write dirs batches fs with
            | mk res fs2 =>
              simp only [hw] at h
              cases res with
              | error e => simp at h
              | ok u =>
                have hresp : msgInit 5 now = resp := by simpa using h
                rw [← hresp]
                rfl
      · rw [if_neg h4]
        refine ⟨?_, fun _ _ _ => rfl⟩
        intro resp h
        simp at h

theorem C7_dispatch_witness :
    (∀ resp : Msg,
      (handle_message [] [] ⟨[], []⟩ ⟨0, [("ts", JVal.jnum 0)]⟩ 1).1 = .ok resp →
        resp.type % 2 = 1) ∧
    ((1 : Int) ≠ 0) ∧ ((1 : Int) ≠ 2) ∧ ((1 : Int) ≠ 4) ∧
    isErr (handle_message [] [] ⟨[], []⟩ ⟨1, [("ts", JVal.jnum 0)]⟩ 1).1 = true :=
  ⟨(C7_dispatch [] [] ⟨[], []⟩ ⟨0, [("ts", JVal.jnum 0)]⟩ 1).1,
   by decide, by decide, by decide,
   (C7_dispatch [] [] ⟨[], []⟩ ⟨1, [("ts", JVal.jnum 0)]⟩ 1).2
     (by decide) (by decide) (by decide)⟩

/-- C8: DirMonitor invariant. From construction onward the published
snapshot list has exactly one snapshot per configured root; each refresh
builds a complete fresh list of the same length in configuration order,
with the entry at index i computed by crawling root i against its previous
snapshot, and publishes it by replacing the whole list value (the model is
pure, so existing snapshots are never mutated in place). -/
theorem C8_monitor_invariant (crawlers : List DirState) (n : Nat) :
    (monitorIter n (monitorInit crawlers)).files.length = crawlers.length ∧
    (∀ i, i < crawlers.length →
      (monitorIter (n + 1) (monitorInit crawlers)).files.getD i [] =
        crawl_and_hash (crawlers.getD i ⟨[]⟩)
          ((monitorIter n (monitorInit crawlers)).files.getD i [])) := by
  refine ⟨monitor_files_length crawlers n, ?_⟩
  intro i hi
  rw [monitorIter_succ]
  show (crawl_all (monitorIter n (monitorInit crawlers)).crawlers
      (monitorIter n (monitorInit crawlers)).files).getD i [] = _
  rw [monitorIter_crawlers]
  exact zipWith_getD crawl_and_hash crawlers _ i hi
    (by rw [monitor_files_length]; exact hi)

theorem C8_monitor_invariant_witness :
    ((monitorIter 2 (monitorInit [⟨[⟨"a", 1, [5]⟩]⟩])).files.length = 1) ∧
    ((0 : Nat) < 1) ∧
    ((monitorIter 3 (monitorInit [⟨[⟨"a", 1, [5]⟩]⟩])).files.getD 0 [] =
      crawl_and_hash (([⟨[⟨"a", 1, [5]⟩]⟩] : List DirState).getD 0 ⟨[]⟩)
        ((monitorIter 2 (monitorInit [⟨[⟨"a", 1, [5]⟩]⟩])).files.getD 0 [])) :=
  ⟨(C8_monitor_invariant [⟨[⟨"a", 1, [5]⟩]⟩] 2).1, by decide,
   (C8_monitor_invariant [⟨[⟨"a", 1, [5]⟩]⟩] 2).2 0 (by decide)⟩

/-- C9: The upload cycle never suppresses the upload step. When the
received DIFF_RESPONSE carries one empty diff list per root (and at least
one root is configured), upload_files still succeeds, sending the
DIFF_REQUEST and then an UPLOAD_REQUEST whose uploaded_files value is a
list with one empty map per root, before waiting for the UPLOAD_RESPONSE.
-/
theorem C9_always_uploads (monitor_files : List Snap) (dirs : List DirState)
    (diff_response : Msg) (now : Int) (n : Nat)
    (hn : 1 ≤ n) (hlen : n ≤ dirs.length)
    (hdiff : alookup diff_response.body "diff" =
      some (JVal.jlist (List.replicate n (JVal.jlist [])))) :
    upload_files monitor_files dirs diff_response now =
      .ok ({ type := 2,
             body := dictInsert (msgInit 2 now).body "files"
               (snapsToJVal monitor_files) },
           { type := 4,
             body := dictInsert (msgInit 4 now).body "uploaded_files"
               (JVal.jlist (List.replicate n (JVal.jobj []))) }) := by
  unfold upload_files
  simp only [getKey, hdiff, jvalToStrLists_empties]
  cases n with
  | zero => omega
  | succ m =>
    split
    · next heq =>
      rw [List.replicate_succ] at heq
      cases heq
    · next f fss heq =>
      simp only [files_to_upload_empties dirs (m + 1) hlen, batchesToJVal_empties]

theorem C9_always_uploads_witness :
    ((1 : Nat) ≤ 1) ∧
    ((1 : Nat) ≤ ([⟨[]⟩] : List DirState).length) ∧
    (alookup ([("ts", JVal.jnum 0),
        ("diff", JVal.jlist (List.replicate 1 (JVal.jlist [])))] : Body) "diff" =
      some (JVal.jlist (List.replicate 1 (JVal.jlist [])))) ∧
    upload_files [] [⟨[]⟩]
        ⟨3, [("ts", JVal.jnum 0),
             ("diff", JVal.jlist (List.replicate 1 (JVal.jlist [])))]⟩ 2 =
      .ok ({ type := 2,
             body := dictInsert (msgInit 2 2).body "files" (snapsToJVal []) },
           { type := 4,
             body := dictInsert (msgInit 4 2).body "uploaded_files"
               (JVal.jlist (List.replicate 1 (JVal.jobj []))) }) :=
  ⟨by decide, by decide, rfl,
   C9_always_uploads [] [⟨[]⟩]
     ⟨3, [("ts", JVal.jnum 0),
          ("diff", JVal.jlist (List.replicate 1 (JVal.jlist [])))]⟩ 2 1
     (by decide) (by decide) rfl⟩

end SyncDir

